import Mathlib

/-!
Verification of the conversation store and chat pipeline of the
Fynorra chat backend (backend/services/db.py, backend/api/rag_router.py,
backend/api/admin_router.py, main.py).

Modelling conventions of the shallow embedding:
* SQLite rows become Lean structures; each table is a list of rows in
  insertion order.  The three tables live in the `DB` state record.
* Timestamps are integers.  The code stores ISO-8601 strings produced by
  `datetime.utcnow().isoformat() + "Z"` and compares them with the SQL
  `<` operator on text; on such strings the lexicographic order agrees
  with the chronological order, so the embedding uses an ordered integer
  clock.  The value of the clock at each call is an explicit argument.
* Generated identifiers (`uuid.uuid4()`) are explicit arguments; the
  assumption that they never collide (and never collide with the UNIQUE
  and PRIMARY KEY columns, which SQLite itself enforces) is the
  side-condition `OpOk` on operation traces.
* Python float scores are rationals with two decimals; they are scaled
  by 100 to naturals (0.75 becomes 75, 0.98 becomes 98, and so on).
  All comparisons performed by the code are exact at this scale.
* Python string slicing `s[:n]` is character based, embedded as
  `pyTake n s` on the character list of the string.
-/

namespace ChatDemo

/-- Timestamps: an integer clock standing for UTC instants. -/
abbrev Time := Int

/-- Row of the `conversations` table (db.py `_init`): id PRIMARY KEY,
session_id UNIQUE, title, created_at, last_activity (nullable, added by
migration). -/
structure Conv where
  id : String
  session_id : String
  title : String
  created_at : Time
  last_activity : Option Time
deriving DecidableEq

/-- Row of the `messages` table: id PRIMARY KEY, conversation_id, role,
text, file_url (nullable), created_at. -/
structure Msg where
  id : String
  conversation_id : String
  role : String
  text : String
  file_url : Option String
  created_at : Time
deriving DecidableEq

/-- Metadata dictionaries stored with a lead; the chat endpoint passes
string-to-boolean dictionaries, json-encoded by `create_lead`. -/
abbrev Md := List (String × Bool)

/-- Row of the `leads` table: id PRIMARY KEY, conversation_id, interest,
score, metadata, created_at (name, email, phone are never inserted by
`create_lead` and are omitted). -/
structure Lead where
  id : String
  conversation_id : String
  interest : String
  score : Nat
  metadata : Md
  created_at : Time
deriving DecidableEq

/-- The whole SQLite database state. -/
structure DB where
  conversations : List Conv
  messages : List Msg
  leads : List Lead
deriving DecidableEq

/-- The freshly initialised database (`_init` creates empty tables). -/
def DB.empty : DB := ⟨[], [], []⟩

/-- db.py: `SESSION_TTL_SECONDS = int(os.environ.get("SESSION_TTL_SECONDS", 600))`,
taken at its default. -/
def SESSION_TTL_SECONDS : Time := 600

/-- Python truthiness of an `Optional[str]`: `None` and the empty string
are falsy. -/
def truthy : Option String → Bool
  | none => false
  | some s => !(s == "")

/-- Python character slicing `s[:n]`. -/
def pyTake (n : Nat) (s : String) : String := String.mk (s.data.take n)

/-- Python `str.lower()`, embedded character by character. -/
def pyLower (s : String) : String := String.mk (s.data.map Char.toLower)

/-- The whitespace characters removed by Python `str.strip()`. -/
def isPySpace (c : Char) : Bool :=
  c == ' ' || c == '\t' || c == '\n' || c == '\r' || c == '\x0b' || c == '\x0c'

/-- Python `str.strip()`: drop whitespace from both ends. -/
def pyStrip (s : String) : String :=
  String.mk (((s.data.dropWhile isPySpace).reverse.dropWhile isPySpace).reverse)

/-- Return value of `upsert_conversation`:
`{"id": ..., "session_id": ...}`. -/
structure UpsertRet where
  id : String
  session_id : String
deriving DecidableEq

/-- The `SELECT id, session_id FROM conversations WHERE session_id = ?`
lookup; `fetchone` returns the first matching row. -/
def findBySession (l : List Conv) (s : String) : Option Conv :=
  l.find? (fun c => c.session_id == s)

/-- The `UPDATE conversations SET last_activity = ? WHERE id = ?`
statement. -/
def touch (l : List Conv) (cid : String) (now : Time) : List Conv :=
  l.map (fun c => if c.id == cid then { c with last_activity := some now } else c)

/-- db.py `upsert_conversation(session_id)`: get or create a conversation.
If `session_id` is truthy and a row with it exists, bump that row and
return it; otherwise insert a new row whose session id is `session_id`
when truthy and a generated `sess_...` string (`freshSess`) otherwise.
`now` is the current clock, `newId` the generated `uuid4` id. -/
def upsert_conversation (st : DB) (session_id : Option String) (now : Time)
    (newId freshSess : String) : DB × UpsertRet :=
  if truthy session_id then
    match findBySession st.conversations (session_id.getD "") with
    | some row =>
        ({ st with conversations := touch st.conversations row.id now },
         ⟨row.id, row.session_id⟩)
    | none =>
        ({ st with conversations :=
            st.conversations ++ [⟨newId, session_id.getD "", "Chat", now, some now⟩] },
         ⟨newId, session_id.getD ""⟩)
  else
    ({ st with conversations :=
        st.conversations ++ [⟨newId, freshSess, "Chat", now, some now⟩] },
     ⟨newId, freshSess⟩)

/-- db.py `save_message`: insert a message row and bump the owning
conversation, returning the generated message id. -/
def save_message (st : DB) (conversation_id role text : String)
    (file_url : Option String) (now : Time) (msgId : String) : DB × String :=
  ({ st with
      messages := st.messages ++ [⟨msgId, conversation_id, role, text, file_url, now⟩],
      conversations := touch st.conversations conversation_id now },
   msgId)

/-- Messages of one conversation in table order
(`WHERE conversation_id = ?`). -/
def msgsOf (st : DB) (cid : String) : List Msg :=
  st.messages.filter (fun m => m.conversation_id == cid)

/-- The `ORDER BY created_at DESC` comparison used by
`get_last_messages` (ties are broken by the sort, as in SQLite). -/
def msgDescR (a b : Msg) : Prop := b.created_at ≤ a.created_at

instance : DecidableRel msgDescR :=
  fun a b => inferInstanceAs (Decidable (b.created_at ≤ a.created_at))

instance : IsTotal Msg msgDescR := ⟨fun a b => le_total b.created_at a.created_at⟩

instance : IsTrans Msg msgDescR := ⟨fun _ _ _ h1 h2 => le_trans h2 h1⟩

/-- db.py `get_last_messages(conversation_id, limit)`: select the rows of
the conversation ordered by `created_at DESC`, keep `LIMIT limit` of
them, and reverse to oldest-to-newest.  (The code projects each row to
its role, text and created_at; the embedding keeps the full row.) -/
def get_last_messages (st : DB) (conversation_id : String) (limit : Nat) : List Msg :=
  ((List.insertionSort msgDescR (msgsOf st conversation_id)).take limit).reverse

/-- db.py `create_lead`: insert a lead whose interest is `snippet[:120]`,
with the given score and the json dump of `metadata or {}`, and return
the inserted row. -/
def create_lead (st : DB) (conversation_id snippet : String) (score : Nat)
    (metadata : Option Md) (now : Time) (leadId : String) : DB × Lead :=
  let lead : Lead := ⟨leadId, conversation_id, pyTake 120 snippet, score,
                      metadata.getD [], now⟩
  ({ st with leads := st.leads ++ [lead] }, lead)

/-- db.py `delete_conversation`: the three DELETE statements removing the
messages, the leads and the conversation row itself. -/
def delete_conversation (st : DB) (conversation_id : String) : DB :=
  { conversations := st.conversations.filter (fun c => !(c.id == conversation_id)),
    messages := st.messages.filter (fun m => !(m.conversation_id == conversation_id)),
    leads := st.leads.filter (fun l => !(l.conversation_id == conversation_id)) }

/-- The cutoff `datetime.utcnow() - timedelta(seconds=ttl)` with the
default TTL substituted for a missing argument, shared by
`cleanup_old_sessions` and the admin preview endpoint. -/
def cutoffOf (ttl_seconds : Option Time) (now : Time) : Time :=
  now - ttl_seconds.getD SESSION_TTL_SECONDS

/-- The SQL predicate `last_activity < cutoff` (false on NULL, as in
SQLite, where comparing NULL yields NULL and selects nothing). -/
def isExpired (la : Option Time) (cutoff : Time) : Bool :=
  match la with
  | none => false
  | some t => decide (t < cutoff)

/-- db.py `cleanup_old_sessions(ttl_seconds)`: select the ids of the
conversations with `last_activity < cutoff`, delete each of them with
its messages and leads, and return the list of deleted ids. -/
def cleanup_old_sessions (st : DB) (ttl_seconds : Option Time) (now : Time) :
    DB × List String :=
  let cutoff := cutoffOf ttl_seconds now
  let ids := (st.conversations.filter (fun c => isExpired c.last_activity cutoff)).map
    (fun c => c.id)
  (ids.foldl (fun acc cid => delete_conversation acc cid) st, ids)

/-- The `ORDER BY last_activity ASC` comparison of the admin preview
(SQLite sorts NULLs first in ascending order). -/
def convAscR (a b : Conv) : Prop :=
  match a.last_activity, b.last_activity with
  | none, _ => True
  | some _, none => False
  | some x, some y => x ≤ y

instance : DecidableRel convAscR := fun a b => by
  unfold convAscR
  cases a.last_activity <;> cases b.last_activity <;> infer_instance

/-- admin_router.py `cleanup_preview(ttl_seconds)`: select the rows that
the cleanup WOULD delete, `ORDER BY last_activity ASC`, without deleting
anything.  (The code projects each row to id, session_id and
last_activity; the embedding keeps the full row.) -/
def cleanup_preview (st : DB) (ttl_seconds : Option Time) (now : Time) : List Conv :=
  let cutoff := cutoffOf ttl_seconds now
  List.insertionSort convAscR
    (st.conversations.filter (fun c => isExpired c.last_activity cutoff))

/-!
Lead detection in the chat endpoint (rag_router.py, lines 320-369).
Free text is embedded as its list of whitespace-separated words, so a
regex alternative `\b(w1 w2)\b` matched against the text becomes a
consecutive run of words inside the word list.  The email and phone
regexes of `extract_contact` scan raw characters and are abstracted as
the two boolean inputs recording whether they matched.
-/

/-- Lowercasing a word list (`text.lower()` under the word embedding). -/
def lowerWords (ws : List String) : List String := ws.map pyLower

/-- Does the consecutive word run `p` occur inside `toks`
(a word-boundary regex phrase match)? -/
def phraseMatch (p toks : List String) : Bool :=
  toks.tails.any (fun t => p.isPrefixOf t)

/-- Does one alternative of a `\b(a|b c|...)\b` pattern match? -/
def patMatch (alts : List (List String)) (toks : List String) : Bool :=
  alts.any (fun p => phraseMatch p toks)

/-- rag_router.py `KEYWORD_WEIGHTS`: each regex as its list of word
alternatives, each weight scaled by 100. -/
def KEYWORD_WEIGHTS : List (List (List String) × Nat) :=
  [ ([["demo"], ["schedule", "demo"], ["book", "demo"]], 95),
    ([["price"], ["pricing"], ["cost"], ["quote"]], 85),
    ([["interested"], ["want", "to", "buy"], ["purchase"], ["signup"],
      ["sign", "up"], ["get", "started"]], 75),
    ([["contact"], ["call", "me"], ["reach", "out"], ["connect"]], 65),
    ([["schedule"], ["meeting"], ["request", "demo"]], 80) ]

/-- rag_router.py `compute_interest_score`: the maximum weight among the
matching keyword patterns, 0 when none matches. -/
def compute_interest_score (toks : List String) : Nat :=
  KEYWORD_WEIGHTS.foldl
    (fun score pw => if patMatch pw.1 toks then max score pw.2 else score) 0

/-- The combined score the endpoint compares against the threshold:
`compute_interest_score` of the lowercased user message followed by the
assistant reply, raised to at least 98 when contact data was found. -/
def combinedScore (messageWords replyWords : List String)
    (emailPresent phonePresent : Bool) : Nat :=
  let s0 := compute_interest_score (lowerWords (messageWords ++ replyWords))
  if emailPresent || phonePresent then max s0 98 else s0

/-- Substring test `needle in hay` on Python strings. -/
def strContains (hay needle : String) : Bool :=
  hay.data.tails.any (fun t => needle.data.isPrefixOf t)

/-- The question words of the short-question guard in the chat
endpoint. -/
def questionWords : List String := ["what", "who", "how", "tell", "batao", "kya"]

/-- rag_router.py lines 342-369: the lead-detection tail of the normal
(retrieval + LLM) flow.  Computes the combined score, applies the
short-question guard, and when the score reaches the threshold creates
a lead from `message_text[:500]` with metadata
`{"detected_contact": ...}`, returning the new state, the `is_lead`
flag and the created lead.  `threshold` is `LEAD_THRESHOLD` scaled by
100 (default 75). -/
def chat_lead_step (st : DB) (conversation_id : String)
    (messageWords replyWords : List String)
    (emailPresent phonePresent : Bool) (threshold : Nat)
    (now : Time) (leadId : String) : DB × Bool × Option Lead :=
  let message_text := String.intercalate " " messageWords
  let score_combined := combinedScore messageWords replyWords emailPresent phonePresent
  let is_lead := decide (threshold ≤ score_combined)
  let is_lead :=
    if !is_lead then
      if decide (messageWords.length < 6)
          && questionWords.any (fun qw => strContains (pyLower message_text) qw)
      then false
      else is_lead
    else is_lead
  if is_lead then
    let r := create_lead st conversation_id (pyTake 500 message_text) score_combined
      (some [("detected_contact", emailPresent || phonePresent)]) now leadId
    (r.1, true, some r.2)
  else (st, false, none)

/-!
The `/ask` endpoint of the history-free deployment (main.py).  The only
step that can raise inside the handler try block is the RAG chain call
(`qa_chain` runs user-provided retrieval and a network call); it is
embedded as an `Except` value: `Except.error e` is the exception carrying
message `e`, `Except.ok a` the returned answer string.
-/

/-- main.py `INSTANT_QA`: the exact-match instant answers. -/
def INSTANT_QA : List (String × String) :=
  [ ("hi", "👋 Hello! I\x27m Fynorra\x27s AI assistant. How can I help you today?"),
    ("hello", "👋 Hi there! Ask me anything about Fynorra."),
    ("hey", "Hey! 👋 Need help with Fynorra?"),
    ("how are you", "I\x27m doing great! 😊 Ready to assist with anything related to Fynorra."),
    ("what\x27s up", "All good here! Let me know what you\x27d like to explore in Fynorra."),
    ("what is fynorra", "Fynorra is an AI automation platform to build models, APIs, and automate workflows—no coding needed!"),
    ("what does fynorra do", "Fynorra helps businesses automate tasks, train AI models, and deploy smart APIs quickly."),
    ("how can i use fynorra", "You can upload your data, fine-tune models, generate APIs, and automate workflows in minutes."),
    ("is fynorra free", "Yes! Fynorra offers a free plan for basic features, plus pro & enterprise tiers."),
    ("who built fynorra", "Fynorra is built by AI experts aiming to simplify intelligent automation for everyone."),
    ("fynorra features", "Fynorra offers model training, API generation, custom chatbots, workflow automation, and more."),
    ("fynorra contact", "Reach out to us at info@fynorra.com or use the contact form on our site."),
    ("goodbye", "Goodbye! 😊 Feel free to come back anytime if you have more questions."),
    ("bye", "Goodbye! 😊 Feel free to come back anytime if you have more questions.") ]

/-- The generic apology body of the unhandled-error branch. -/
def criticalErrorMsg : String :=
  "Apologies! A critical error occurred. Please try again or contact support if the issue persists."

/-- The canned reply of the no-info branch. -/
def noInfoMsg : String :=
  "I don\x27t have enough information from Fynorra\x27s knowledge base to answer that. Could you please rephrase, or ask about our core services like chatbots, automation, or software development?"

/-- An HTTP JSONResponse of the `/ask` handler, reduced to its status
code, answer text and `type` tag. -/
structure AskResponse where
  status : Nat
  answer : String
  rtype : String
deriving DecidableEq

/-- main.py `ask_question`: strip and lowercase the question, serve an
instant answer on exact match, otherwise run the RAG chain; an exception
anywhere in the try block becomes a 500 response with the generic
apology, a no-info answer becomes the canned 200 reply, and any other
answer is returned with status 200. -/
def ask_question (question : String) (qaChain : Except String String) : AskResponse :=
  let q := pyStrip question
  let ql := pyLower q
  match INSTANT_QA.lookup ql with
  | some a => ⟨200, a, "instant"⟩
  | none =>
    match qaChain with
    | Except.error _ => ⟨500, criticalErrorMsg, "unhandled_error"⟩
    | Except.ok answer =>
      if strContains (pyLower answer) "i don\x27t have enough information"
          || strContains (pyLower answer) "not directly available in the provided context"
      then ⟨200, noInfoMsg, "no_info"⟩
      else ⟨200, answer, "rag"⟩

/-!
Operation traces over the store.  Each constructor carries the values
the Python code obtains from its environment (the clock, the generated
uuids); `OpOk` states that generated identifiers are fresh, which is
what `uuid4` gives in practice and what the PRIMARY KEY / UNIQUE
constraints enforce; `LeadTargetOk` is the precondition that
`create_lead` is only called on an existing conversation (the chat
endpoint calls it with the id returned by `upsert_conversation`).
-/

/-- One call into the store API. -/
inductive Op where
  | upsert (session_id : Option String) (now : Time) (newId freshSess : String)
  | save (conversation_id role text : String) (file_url : Option String)
      (now : Time) (msgId : String)
  | newLead (conversation_id snippet : String) (score : Nat) (metadata : Option Md)
      (now : Time) (leadId : String)
  | deleteConv (conversation_id : String)
  | cleanup (ttl_seconds : Option Time) (now : Time)

/-- The state transition of one operation. -/
def applyOp (st : DB) : Op → DB
  | .upsert sid now nid fs => (upsert_conversation st sid now nid fs).1
  | .save cid role text fu now mid => (save_message st cid role text fu now mid).1
  | .newLead cid sn sc md now lid => (create_lead st cid sn sc md now lid).1
  | .deleteConv cid => delete_conversation st cid
  | .cleanup ttl now => (cleanup_old_sessions st ttl now).1

/-- Freshness of the generated identifiers of one operation. -/
def OpOk (st : DB) : Op → Prop
  | .upsert sid _ nid fs =>
      nid ∉ st.conversations.map (fun c => c.id) ∧
      (truthy sid = false → fs ∉ st.conversations.map (fun c => c.session_id))
  | .save _ _ _ _ _ mid => mid ∉ st.messages.map (fun m => m.id)
  | .newLead _ _ _ _ _ lid => lid ∉ st.leads.map (fun l => l.id)
  | .deleteConv _ => True
  | .cleanup _ _ => True

/-- Precondition that `create_lead` only targets existing
conversations. -/
def LeadTargetOk (st : DB) : Op → Prop
  | .newLead cid _ _ _ _ _ => cid ∈ st.conversations.map (fun c => c.id)
  | _ => True

/-- States reachable from the fresh database by well-formed
operations. -/
inductive Reach : DB → Prop where
  | init : Reach DB.empty
  | step {st : DB} {op : Op} : Reach st → OpOk st op → Reach (applyOp st op)

/-- Reachability when, additionally, every `create_lead` call targets an
existing conversation. -/
inductive ReachL : DB → Prop where
  | init : ReachL DB.empty
  | step {st : DB} {op : Op} : ReachL st → OpOk st op → LeadTargetOk st op →
      ReachL (applyOp st op)

/-- The C1 invariant: no two rows of `conversations` share a
session id. -/
def SessUnique (st : DB) : Prop :=
  (st.conversations.map (fun c => c.session_id)).Nodup

/-- The C7 invariant: every lead references an existing conversation. -/
def LeadRefOk (st : DB) : Prop :=
  ∀ l ∈ st.leads, l.conversation_id ∈ st.conversations.map (fun c => c.id)

/-!  Basic lemmas about the store operations.  -/

lemma touch_map_session (l : List Conv) (cid : String) (now : Time) :
    (touch l cid now).map (fun c => c.session_id) = l.map (fun c => c.session_id) := by
  simp only [touch, List.map_map]
  refine List.map_congr_left (fun c _ => ?_)
  by_cases h : c.id == cid <;> simp [Function.comp, h]

lemma touch_map_id (l : List Conv) (cid : String) (now : Time) :
    (touch l cid now).map (fun c => c.id) = l.map (fun c => c.id) := by
  simp only [touch, List.map_map]
  refine List.map_congr_left (fun c _ => ?_)
  by_cases h : c.id == cid <;> simp [Function.comp, h]

lemma not_mem_session_of_findBySession_none {l : List Conv} {s : String}
    (h : findBySession l s = none) : s ∉ l.map (fun c => c.session_id) := by
  intro hs
  rcases List.mem_map.mp hs with ⟨c, hc, hcs⟩
  have hfc := List.find?_eq_none.mp h c hc
  simp [hcs] at hfc

lemma findBySession_touch (l : List Conv) (cid : String) (now : Time) (s : String) :
    findBySession (touch l cid now) s
      = (findBySession l s).map
          (fun c => if c.id == cid then { c with last_activity := some now } else c) := by
  simp only [findBySession, touch]
  rw [List.find?_map]
  have hp : ((fun c : Conv => c.session_id == s) ∘
      (fun c : Conv => if c.id == cid then { c with last_activity := some now } else c))
      = (fun c : Conv => c.session_id == s) := by
    funext c
    by_cases h : c.id == cid <;> simp [Function.comp, h]
  rw [hp]

lemma foldlDelete_conversations (ids : List String) (st : DB) :
    (ids.foldl (fun acc cid => delete_conversation acc cid) st).conversations
      = st.conversations.filter (fun c => !(ids.contains c.id)) := by
  induction ids generalizing st with
  | nil => simp
  | cons i r ih =>
      rw [List.foldl_cons, ih]
      show (st.conversations.filter (fun c => !(c.id == i))).filter
          (fun c => !(r.contains c.id))
        = st.conversations.filter (fun c => !((i :: r).contains c.id))
      rw [List.filter_filter]
      refine List.filter_congr (fun c _ => ?_)
      rw [List.contains_cons]
      cases h1 : c.id == i <;> cases h2 : r.contains c.id <;> simp [h1, h2]

lemma foldlDelete_messages (ids : List String) (st : DB) :
    (ids.foldl (fun acc cid => delete_conversation acc cid) st).messages
      = st.messages.filter (fun m => !(ids.contains m.conversation_id)) := by
  induction ids generalizing st with
  | nil => simp
  | cons i r ih =>
      rw [List.foldl_cons, ih]
      show (st.messages.filter (fun m => !(m.conversation_id == i))).filter
          (fun m => !(r.contains m.conversation_id))
        = st.messages.filter (fun m => !((i :: r).contains m.conversation_id))
      rw [List.filter_filter]
      refine List.filter_congr (fun m _ => ?_)
      rw [List.contains_cons]
      cases h1 : m.conversation_id == i <;> cases h2 : r.contains m.conversation_id <;>
        simp [h1, h2]

lemma foldlDelete_leads (ids : List String) (st : DB) :
    (ids.foldl (fun acc cid => delete_conversation acc cid) st).leads
      = st.leads.filter (fun l => !(ids.contains l.conversation_id)) := by
  induction ids generalizing st with
  | nil => simp
  | cons i r ih =>
      rw [List.foldl_cons, ih]
      show (st.leads.filter (fun l => !(l.conversation_id == i))).filter
          (fun l => !(r.contains l.conversation_id))
        = st.leads.filter (fun l => !((i :: r).contains l.conversation_id))
      rw [List.filter_filter]
      refine List.filter_congr (fun l _ => ?_)
      rw [List.contains_cons]
      cases h1 : l.conversation_id == i <;> cases h2 : r.contains l.conversation_id <;>
        simp [h1, h2]

lemma cleanup_conversations (st : DB) (ttl : Option Time) (now : Time) :
    (cleanup_old_sessions st ttl now).1.conversations
      = st.conversations.filter
          (fun c => !((cleanup_old_sessions st ttl now).2.contains c.id)) :=
  foldlDelete_conversations _ _

lemma cleanup_messages (st : DB) (ttl : Option Time) (now : Time) :
    (cleanup_old_sessions st ttl now).1.messages
      = st.messages.filter
          (fun m => !((cleanup_old_sessions st ttl now).2.contains m.conversation_id)) :=
  foldlDelete_messages _ _

lemma cleanup_leads (st : DB) (ttl : Option Time) (now : Time) :
    (cleanup_old_sessions st ttl now).1.leads
      = st.leads.filter
          (fun l => !((cleanup_old_sessions st ttl now).2.contains l.conversation_id)) :=
  foldlDelete_leads _ _

lemma cleanup_ids (st : DB) (ttl : Option Time) (now : Time) :
    (cleanup_old_sessions st ttl now).2
      = (st.conversations.filter
          (fun c => isExpired c.last_activity (cutoffOf ttl now))).map (fun c => c.id) :=
  rfl

lemma nodup_session_append {l : List Conv} {c : Conv}
    (h : (l.map (fun x => x.session_id)).Nodup)
    (hc : c.session_id ∉ l.map (fun x => x.session_id)) :
    ((l ++ [c]).map (fun x => x.session_id)).Nodup := by
  rw [List.map_append, List.nodup_append]
  refine ⟨h, by simp, ?_⟩
  intro a ha hb
  rcases List.mem_singleton.mp (by simpa using hb) with rfl
  exact hc ha

/-- Every well-formed operation preserves session uniqueness. -/
lemma sessUnique_applyOp {st : DB} {op : Op}
    (h : SessUnique st) (hok : OpOk st op) : SessUnique (applyOp st op) := by
  cases op with
  | upsert sid now nid fs =>
      simp only [applyOp, upsert_conversation]
      by_cases ht : truthy sid
      · simp only [ht, if_true]
        cases hf : findBySession st.conversations (sid.getD "") with
        | some row =>
            simp only [hf, SessUnique]
            rw [touch_map_session]
            exact h
        | none =>
            simp only [hf, SessUnique]
            exact nodup_session_append h (not_mem_session_of_findBySession_none hf)
      · simp only [ht, if_false, SessUnique]
        have hfs := hok.2 (by simpa using ht)
        exact nodup_session_append h hfs
  | save cid role text fu now mid =>
      simp only [applyOp, save_message, SessUnique]
      rw [touch_map_session]
      exact h
  | newLead cid sn sc md now lid =>
      simpa only [applyOp, create_lead, SessUnique] using h
  | deleteConv cid =>
      simp only [applyOp, delete_conversation, SessUnique]
      exact (((List.filter_sublist _).map _).nodup) h
  | cleanup ttl now =>
      show SessUnique (cleanup_old_sessions st ttl now).1
      unfold SessUnique
      rw [cleanup_conversations]
      exact (((List.filter_sublist _).map _).nodup) h

/-- Every well-formed operation with existing lead targets preserves
lead referential integrity. -/
lemma leadRefOk_applyOp {st : DB} {op : Op}
    (h : LeadRefOk st) (hok : OpOk st op) (hl : LeadTargetOk st op) :
    LeadRefOk (applyOp st op) := by
  cases op with
  | upsert sid now nid fs =>
      intro l hmem
      simp only [applyOp, upsert_conversation] at hmem ⊢
      by_cases ht : truthy sid
      · simp only [ht, if_true] at hmem ⊢
        cases hf : findBySession st.conversations (sid.getD "") with
        | some row =>
            simp only [hf] at hmem ⊢
            rw [touch_map_id]
            exact h l hmem
        | none =>
            simp only [hf] at hmem ⊢
            rw [List.map_append]
            exact List.mem_append_left _ (h l hmem)
      · rw [if_neg ht] at hmem ⊢
        rw [List.map_append]
        exact List.mem_append_left _ (h l hmem)
  | save cid role text fu now mid =>
      intro l hmem
      simp only [applyOp, save_message] at hmem ⊢
      rw [touch_map_id]
      exact h l hmem
  | newLead cid sn sc md now lid =>
      intro l hmem
      simp only [applyOp, create_lead] at hmem ⊢
      rcases List.mem_append.mp hmem with hold | hnew
      · exact h l hold
      · rcases List.mem_singleton.mp hnew with rfl
        simpa only [LeadTargetOk] using hl
  | deleteConv cid =>
      intro l hmem
      simp only [applyOp, delete_conversation] at hmem ⊢
      rcases List.mem_filter.mp hmem with ⟨hold, hne⟩
      rcases List.mem_map.mp (h l hold) with ⟨c, hc, hcid⟩
      refine List.mem_map.mpr ⟨c, List.mem_filter.mpr ⟨hc, ?_⟩, hcid⟩
      rw [hcid]
      exact hne
  | cleanup ttl now =>
      intro l hmem
      show l.conversation_id ∈ (cleanup_old_sessions st ttl now).1.conversations.map
        (fun c => c.id)
      rw [cleanup_conversations]
      simp only [applyOp] at hmem
      rw [cleanup_leads] at hmem
      rcases List.mem_filter.mp hmem with ⟨hold, hne⟩
      rcases List.mem_map.mp (h l hold) with ⟨c, hc, hcid⟩
      refine List.mem_map.mpr ⟨c, List.mem_filter.mpr ⟨hc, ?_⟩, hcid⟩
      rw [hcid]
      exact hne

/-- Claim C1: for every state of the conversation store reachable by the
operations upsert_conversation, save_message, create_lead,
delete_conversation and cleanup_old_sessions, a session token maps to at
most one conversation: no two rows of the conversations table have the
same session_id. -/
theorem C1_session_unique (st : DB) (h : Reach st) : SessUnique st := by
  induction h with
  | init => simp [SessUnique, DB.empty]
  | step _ hok ih => exact sessUnique_applyOp ih hok

theorem C1_session_unique_witness :
    Reach (applyOp DB.empty (Op.upsert none 0 "conv-1" "sess_ab12")) ∧
      SessUnique (applyOp DB.empty (Op.upsert none 0 "conv-1" "sess_ab12")) := by
  have hr : Reach (applyOp DB.empty (Op.upsert none 0 "conv-1" "sess_ab12")) :=
    Reach.step Reach.init ⟨by simp [DB.empty], fun _ => by simp [DB.empty]⟩
  exact ⟨hr, C1_session_unique _ hr⟩

/-- Claim C7: in every state reachable by the store operations, under the
precondition that create_lead is only ever called with the id of an
existing conversation, every lead row references an existing
conversation row; deleting a conversation (by delete_conversation or by
the TTL sweep) also deletes all of its leads. -/
theorem C7_lead_references_conversation (st : DB) (h : ReachL st) : LeadRefOk st := by
  induction h with
  | init =>
      intro l hl
      simp [DB.empty] at hl
  | step _ hok hl ih => exact leadRefOk_applyOp ih hok hl

/-- A two-step trace for the C7 witness: create a conversation, then a
lead on it. -/
def wit7 : DB :=
  applyOp (applyOp DB.empty (Op.upsert none 0 "c1" "sess_1"))
    (Op.newLead "c1" "need a demo" 95 none 1 "l1")

theorem C7_lead_references_conversation_witness : ReachL wit7 ∧ LeadRefOk wit7 := by
  have h1 : ReachL (applyOp DB.empty (Op.upsert none 0 "c1" "sess_1")) :=
    ReachL.step ReachL.init ⟨by simp [DB.empty], fun _ => by simp [DB.empty]⟩
      (by simp [LeadTargetOk])
  have h2 : ReachL wit7 :=
    ReachL.step h1
      (by simp [OpOk, applyOp, upsert_conversation, truthy, DB.empty])
      (by simp [LeadTargetOk, applyOp, upsert_conversation, truthy, DB.empty])
  exact ⟨h2, C7_lead_references_conversation _ h2⟩

lemma cleanup_contains_eq {st : DB}
    (hnod : (st.conversations.map (fun c => c.id)).Nodup)
    (ttl : Option Time) (now : Time) {c : Conv} (hc : c ∈ st.conversations) :
    (cleanup_old_sessions st ttl now).2.contains c.id
      = isExpired c.last_activity (cutoffOf ttl now) := by
  rw [cleanup_ids]
  cases hexp : isExpired c.last_activity (cutoffOf ttl now) with
  | true =>
      exact List.elem_iff.mpr
        (List.mem_map.mpr ⟨c, List.mem_filter.mpr ⟨hc, hexp⟩, rfl⟩)
  | false =>
      cases hcon : (st.conversations.filter
          (fun c => isExpired c.last_activity (cutoffOf ttl now))).map
            (fun c => c.id) |>.contains c.id with
      | false => rfl
      | true =>
          rcases List.mem_map.mp (List.elem_iff.mp hcon) with ⟨c2, hc2f, hcid⟩
          rcases List.mem_filter.mp hc2f with ⟨hc2, hexp2⟩
          have heq : c2 = c := List.inj_on_of_nodup_map hnod hc2 hc hcid
          rw [heq, hexp] at hexp2
          exact absurd hexp2 Bool.false_ne_true

/-- Claim C2: cleanup_old_sessions deletes exactly the conversations
whose last_activity is strictly older than now minus the TTL, together
with all of their messages and leads, returns the list of the deleted
conversation ids, and leaves every conversation within the TTL, with its
messages and leads, unchanged.  (The id-uniqueness hypothesis is the
PRIMARY KEY constraint of the conversations table.) -/
theorem C2_cleanup_exact (st : DB) (ttl : Option Time) (now : Time)
    (hnod : (st.conversations.map (fun c => c.id)).Nodup) :
    (cleanup_old_sessions st ttl now).2
        = (st.conversations.filter
            (fun c => isExpired c.last_activity (cutoffOf ttl now))).map (fun c => c.id)
    ∧ (cleanup_old_sessions st ttl now).1.conversations
        = st.conversations.filter
            (fun c => !(isExpired c.last_activity (cutoffOf ttl now)))
    ∧ (cleanup_old_sessions st ttl now).1.messages
        = st.messages.filter
            (fun m => !((cleanup_old_sessions st ttl now).2.contains m.conversation_id))
    ∧ (cleanup_old_sessions st ttl now).1.leads
        = st.leads.filter
            (fun l => !((cleanup_old_sessions st ttl now).2.contains l.conversation_id))
    ∧ ∀ c ∈ st.conversations, isExpired c.last_activity (cutoffOf ttl now) = false →
        c ∈ (cleanup_old_sessions st ttl now).1.conversations
        ∧ msgsOf (cleanup_old_sessions st ttl now).1 c.id = msgsOf st c.id
        ∧ (cleanup_old_sessions st ttl now).1.leads.filter
              (fun l => l.conversation_id == c.id)
            = st.leads.filter (fun l => l.conversation_id == c.id) := by
  refine ⟨cleanup_ids st ttl now, ?_, cleanup_messages st ttl now,
    cleanup_leads st ttl now, ?_⟩
  · rw [cleanup_conversations]
    refine List.filter_congr (fun c hc => ?_)
    rw [cleanup_contains_eq hnod ttl now hc]
  · intro c hc hexp
    have hcontains : (cleanup_old_sessions st ttl now).2.contains c.id = false := by
      rw [cleanup_contains_eq hnod ttl now hc, hexp]
    refine ⟨?_, ?_, ?_⟩
    · rw [cleanup_conversations]
      exact List.mem_filter.mpr ⟨hc, by rw [hcontains]; rfl⟩
    · show (cleanup_old_sessions st ttl now).1.messages.filter
          (fun m => m.conversation_id == c.id)
        = st.messages.filter (fun m => m.conversation_id == c.id)
      rw [cleanup_messages, List.filter_filter]
      refine List.filter_congr (fun m _ => ?_)
      cases hm : m.conversation_id == c.id with
      | false => simp
      | true =>
          have : m.conversation_id = c.id := eq_of_beq hm
          rw [this, hcontains]
          simp
    · rw [cleanup_leads, List.filter_filter]
      refine List.filter_congr (fun l _ => ?_)
      cases hl : l.conversation_id == c.id with
      | false => simp
      | true =>
          have : l.conversation_id = c.id := eq_of_beq hl
          rw [this, hcontains]
          simp

/-- A concrete state for the C2 witness: one conversation inactive since
time 0, one active at time 900, with a message and a lead each. -/
def wit2 : DB :=
  ⟨[⟨"c1", "s1", "Chat", 0, some 0⟩, ⟨"c2", "s2", "Chat", 0, some 900⟩],
   [⟨"m1", "c1", "user", "hi", none, 0⟩, ⟨"m2", "c2", "user", "yo", none, 900⟩],
   [⟨"l1", "c1", "need a demo", 95, [], 0⟩]⟩

theorem C2_cleanup_exact_witness :
    (wit2.conversations.map (fun c => c.id)).Nodup ∧
      (cleanup_old_sessions wit2 none 1000).2
        = (wit2.conversations.filter
            (fun c => isExpired c.last_activity (cutoffOf none 1000))).map
              (fun c => c.id) :=
  ⟨by decide, (C2_cleanup_exact wit2 none 1000 (by decide)).1⟩

/-- Claim C9: for every database state, TTL value and current time, the
conversation ids listed by the admin cleanup preview endpoint are
exactly the conversation ids that cleanup_old_sessions would delete:
both select the conversations with last_activity strictly before the
cutoff. -/
theorem C9_preview_matches_cleanup (st : DB) (ttl : Option Time) (now : Time)
    (cid : String) :
    cid ∈ (cleanup_preview st ttl now).map (fun c => c.id)
      ↔ cid ∈ (cleanup_old_sessions st ttl now).2 := by
  rw [cleanup_ids]
  have hp : (cleanup_preview st ttl now).Perm
      (st.conversations.filter (fun c => isExpired c.last_activity (cutoffOf ttl now))) :=
    List.perm_insertionSort _ _
  exact (hp.map (fun c => c.id)).mem_iff

lemma pyTake_length_le (n : Nat) (s : String) : (pyTake n s).length ≤ n := by
  show (s.data.take n).length ≤ n
  exact List.length_take_le n s.data

/-- The lead-detection tail evaluated: the short-question guard never
changes the decision (it can only reset an already false flag to false),
so the step creates a lead exactly when the combined score reaches the
threshold. -/
lemma chat_lead_step_eq (st : DB) (cid : String) (msgW replyW : List String)
    (email phone : Bool) (threshold : Nat) (now : Time) (lid : String) :
    chat_lead_step st cid msgW replyW email phone threshold now lid
      = if threshold ≤ combinedScore msgW replyW email phone then
          ((create_lead st cid (pyTake 500 (String.intercalate " " msgW))
              (combinedScore msgW replyW email phone)
              (some [("detected_contact", email || phone)]) now lid).1, true,
            some (create_lead st cid (pyTake 500 (String.intercalate " " msgW))
              (combinedScore msgW replyW email phone)
              (some [("detected_contact", email || phone)]) now lid).2)
        else (st, false, none) := by
  unfold chat_lead_step
  by_cases h : threshold ≤ combinedScore msgW replyW email phone
  · rw [if_pos h]
    simp [h]
  · rw [if_neg h]
    simp [h]

lemma interest_score_eq_zero {toks : List String}
    (h : ∀ pw ∈ KEYWORD_WEIGHTS, patMatch pw.1 toks = false) :
    compute_interest_score toks = 0 := by
  have hgen : ∀ (L : List (List (List String) × Nat)),
      (∀ pw ∈ L, patMatch pw.1 toks = false) → ∀ acc : Nat,
      L.foldl (fun score pw => if patMatch pw.1 toks then max score pw.2 else score) acc
        = acc := by
    intro L
    induction L with
    | nil => intro _ acc; rfl
    | cons p t ih =>
        intro hall acc
        rw [List.foldl_cons]
        rw [hall p (List.mem_cons_self _ _)]
        exact ih (fun q hq => hall q (List.mem_cons_of_mem _ hq)) acc
  exact hgen KEYWORD_WEIGHTS h 0

/-- Claim C3: in the normal (retrieval + LLM) flow of the chat endpoint,
a lead record is created if and only if the combined interest score of
the user message and assistant reply (the maximum matching keyword
weight, raised to at least 0.98 when an email or phone number is
present) reaches the lead threshold; when no keyword matches and no
contact information is present, no lead is created. -/
theorem C3_lead_iff_threshold (st : DB) (cid : String) (msgW replyW : List String)
    (email phone : Bool) (threshold : Nat) (now : Time) (lid : String) :
    ((chat_lead_step st cid msgW replyW email phone threshold now lid).2.2.isSome
        ↔ threshold ≤ combinedScore msgW replyW email phone)
    ∧ (0 < threshold →
        (∀ pw ∈ KEYWORD_WEIGHTS, patMatch pw.1 (lowerWords (msgW ++ replyW)) = false) →
        email = false → phone = false →
        (chat_lead_step st cid msgW replyW email phone threshold now lid).2.2 = none) := by
  constructor
  · rw [chat_lead_step_eq]
    by_cases h : threshold ≤ combinedScore msgW replyW email phone
    · rw [if_pos h]
      simpa using h
    · rw [if_neg h]
      simpa using h
  · intro hpos hnone hem hph
    subst hem
    subst hph
    have hscore : combinedScore msgW replyW false false = 0 := by
      show (if (false || false : Bool)
          then max (compute_interest_score (lowerWords (msgW ++ replyW))) 98
          else compute_interest_score (lowerWords (msgW ++ replyW))) = 0
      simpa using interest_score_eq_zero hnone
    rw [chat_lead_step_eq, hscore, if_neg (by omega)]

theorem C3_lead_iff_threshold_witness :
    (chat_lead_step DB.empty "c1" ["hello", "there"] ["sure"] false false 75 0 "l1").2.2
      = none :=
  (C3_lead_iff_threshold DB.empty "c1" ["hello", "there"] ["sure"] false false 75 0
    "l1").2 (by decide) (by decide) rfl rfl

/-- Claim C10: create_lead stores as the interest field the snippet
truncated to at most 120 characters (even though the chat endpoint
passes up to 500 characters of the user message), and stores the
conversation id, score and metadata as given. -/
theorem C10_lead_snippet_truncated (st : DB) (cid snippet : String) (score : Nat)
    (md : Option Md) (now : Time) (lid : String) :
    (create_lead st cid snippet score md now lid).2.interest = pyTake 120 snippet
    ∧ (create_lead st cid snippet score md now lid).2.interest.length ≤ 120
    ∧ (create_lead st cid snippet score md now lid).2.conversation_id = cid
    ∧ (create_lead st cid snippet score md now lid).2.score = score
    ∧ (create_lead st cid snippet score md now lid).2.metadata = md.getD []
    ∧ (create_lead st cid snippet score md now lid).2.created_at = now
    ∧ (create_lead st cid snippet score md now lid).1.leads
        = st.leads ++ [(create_lead st cid snippet score md now lid).2]
    ∧ ∀ (msgW replyW : List String) (email phone : Bool) (threshold : Nat) (l : Lead),
        (chat_lead_step st cid msgW replyW email phone threshold now lid).2.2 = some l →
          l.interest = pyTake 120 (pyTake 500 (String.intercalate " " msgW))
          ∧ l.interest.length ≤ 120 := by
  refine ⟨rfl, pyTake_length_le 120 snippet, rfl, rfl, rfl, rfl, rfl, ?_⟩
  intro msgW replyW email phone threshold l hsome
  rw [chat_lead_step_eq] at hsome
  by_cases h : threshold ≤ combinedScore msgW replyW email phone
  · rw [if_pos h] at hsome
    have hl : l = (create_lead st cid (pyTake 500 (String.intercalate " " msgW))
        (combinedScore msgW replyW email phone)
        (some [("detected_contact", email || phone)]) now lid).2 :=
      (Option.some_inj.mp hsome).symm
    rw [hl]
    exact ⟨rfl, pyTake_length_le 120 _⟩
  · rw [if_neg h] at hsome
    exact absurd hsome (by simp)

/-- The lead created in the C10 witness run. -/
def wit10lead : Lead :=
  ⟨"l1", "c1", "book a demo", 95, [("detected_contact", false)], 5⟩

theorem C10_lead_snippet_truncated_witness :
    (chat_lead_step DB.empty "c1" ["book", "a", "demo"] [] false false 75 5 "l1").2.2
        = some wit10lead
    ∧ wit10lead.interest = pyTake 120 (pyTake 500 (String.intercalate " " ["book", "a", "demo"]))
    ∧ wit10lead.interest.length ≤ 120 := by
  have happ := (C10_lead_snippet_truncated DB.empty "c1" "snippet" 95 none 5
    "l1").2.2.2.2.2.2.2 ["book", "a", "demo"] [] false false 75 wit10lead (by decide)
  exact ⟨by decide, happ.1, happ.2⟩

/-- Claim C4: for every non-null (truthy) session id that already has a
conversation row, upsert_conversation returns that row id without
creating a new row, and two calls to upsert_conversation with the same
session id, with no intervening deletion, return the same conversation
id.  (Session uniqueness is the UNIQUE constraint on session_id.) -/
theorem C4_upsert_stable (st : DB) (s : String) (c : Conv)
    (now now2 : Time) (nid fs nid2 fs2 : String)
    (hs : s ≠ "") (hu : SessUnique st)
    (hc : c ∈ st.conversations) (hcs : c.session_id = s) :
    (upsert_conversation st (some s) now nid fs).2.id = c.id
    ∧ (upsert_conversation st (some s) now nid fs).1.conversations.map (fun x => x.id)
        = st.conversations.map (fun x => x.id)
    ∧ (upsert_conversation ((upsert_conversation st (some s) now nid fs).1)
          (some s) now2 nid2 fs2).2.id
        = (upsert_conversation st (some s) now nid fs).2.id := by
  have ht : truthy (some s) = true := by
    simp [truthy, hs]
  have hsome : ∃ row, findBySession st.conversations s = some row := by
    have : (findBySession st.conversations s).isSome = true :=
      List.find?_isSome.mpr ⟨c, hc, by simp [hcs]⟩
    exact Option.isSome_iff_exists.mp this
  rcases hsome with ⟨row, hf⟩
  have hf2 : st.conversations.find? (fun x => x.session_id == s) = some row := hf
  have hrowc : row = c := by
    have hmem := List.mem_of_find?_eq_some hf2
    have hpr := List.find?_some hf2
    have hrs : row.session_id = s := eq_of_beq hpr
    exact List.inj_on_of_nodup_map hu hmem hc (by rw [hrs, hcs])
  refine ⟨?_, ?_, ?_⟩
  · simp only [upsert_conversation, ht, if_true, Option.getD_some, hf, hrowc]
  · simp only [upsert_conversation, ht, if_true, Option.getD_some, hf]
    exact touch_map_id st.conversations row.id now
  · simp only [upsert_conversation, ht, if_true, Option.getD_some, hf]
    rw [findBySession_touch]
    rw [hf]
    simp

theorem C4_upsert_stable_witness :
    ("s1" ≠ "" ∧ SessUnique wit2 ∧ (⟨"c1", "s1", "Chat", 0, some 0⟩ : Conv) ∈
        wit2.conversations ∧ (⟨"c1", "s1", "Chat", 0, some 0⟩ : Conv).session_id = "s1")
    ∧ (upsert_conversation wit2 (some "s1") 7 "cX" "sX").2.id = "c1" := by
  have hu : SessUnique wit2 := by
    show (["s1", "s2"] : List String).Nodup
    decide
  refine ⟨⟨by decide, hu, by decide, rfl⟩, ?_⟩
  exact (C4_upsert_stable wit2 "s1" ⟨"c1", "s1", "Chat", 0, some 0⟩ 7 8 "cX" "sX" "cY" "sY"
    (by decide) hu (by decide) rfl).1

lemma sorted_take_drop {α : Type} {r : α → α → Prop} {l : List α}
    (hs : List.Pairwise r l) (n : Nat) :
    ∀ a ∈ l.take n, ∀ b ∈ l.drop n, r a b := by
  have h := hs
  rw [← List.take_append_drop n l] at h
  exact (List.pairwise_append.mp h).2.2

/-- Claim C5: get_last_messages returns the n most recently created
messages of the conversation (all of them if it has fewer than n),
ordered oldest-to-newest by creation time: the result is sorted
ascending, has length min n (number of messages), and together with the
dropped rest makes up exactly the messages of the conversation, every
returned message being at least as recent as every dropped one. -/
theorem C5_get_last_messages_ordered (st : DB) (cid : String) (n : Nat) :
    List.Sorted (fun a b : Msg => a.created_at ≤ b.created_at) (get_last_messages st cid n)
    ∧ (get_last_messages st cid n).length = min n (msgsOf st cid).length
    ∧ ((get_last_messages st cid n).reverse
        ++ (List.insertionSort msgDescR (msgsOf st cid)).drop n).Perm (msgsOf st cid)
    ∧ ∀ a ∈ get_last_messages st cid n,
        ∀ b ∈ (List.insertionSort msgDescR (msgsOf st cid)).drop n,
          b.created_at ≤ a.created_at := by
  have hsort : List.Sorted msgDescR (List.insertionSort msgDescR (msgsOf st cid)) :=
    List.sorted_insertionSort msgDescR (msgsOf st cid)
  refine ⟨?_, ?_, ?_, ?_⟩
  · show List.Pairwise (fun a b : Msg => a.created_at ≤ b.created_at)
      ((List.insertionSort msgDescR (msgsOf st cid)).take n).reverse
    rw [List.pairwise_reverse]
    exact List.Pairwise.sublist (List.take_sublist n _) hsort
  · show ((List.insertionSort msgDescR (msgsOf st cid)).take n).reverse.length = _
    rw [List.length_reverse, List.length_take,
      (List.perm_insertionSort msgDescR (msgsOf st cid)).length_eq]
  · show (((List.insertionSort msgDescR (msgsOf st cid)).take n).reverse.reverse
        ++ (List.insertionSort msgDescR (msgsOf st cid)).drop n).Perm (msgsOf st cid)
    rw [List.reverse_reverse, List.take_append_drop]
    exact List.perm_insertionSort msgDescR (msgsOf st cid)
  · intro a ha b hb
    exact sorted_take_drop hsort n a (List.mem_reverse.mp ha) b hb

/-- A conversation with two messages for the C5 witness. -/
def wit5 : DB :=
  ⟨[⟨"c1", "s1", "Chat", 0, some 5⟩],
   [⟨"m1", "c1", "user", "hi", none, 0⟩, ⟨"m2", "c1", "assistant", "hello", none, 5⟩],
   []⟩

theorem C5_get_last_messages_ordered_witness :
    (⟨"m2", "c1", "assistant", "hello", none, 5⟩ : Msg) ∈ get_last_messages wit5 "c1" 1
    ∧ (⟨"m1", "c1", "user", "hi", none, 0⟩ : Msg)
        ∈ (List.insertionSort msgDescR (msgsOf wit5 "c1")).drop 1
    ∧ ((0 : Time) ≤ 5) :=
  ⟨by decide, by decide,
   (C5_get_last_messages_ordered wit5 "c1" 1).2.2.2
     ⟨"m2", "c1", "assistant", "hello", none, 5⟩ (by decide)
     ⟨"m1", "c1", "user", "hi", none, 0⟩ (by decide)⟩

/-- The conversation ids an operation deletes (empty for the
non-deleting operations). -/
def deletedIds (st : DB) : Op → List String
  | .deleteConv cid => [cid]
  | .cleanup ttl now => (cleanup_old_sessions st ttl now).2
  | _ => []

lemma upsert_messages (st : DB) (sid : Option String) (now : Time) (nid fs : String) :
    (upsert_conversation st sid now nid fs).1.messages = st.messages := by
  unfold upsert_conversation
  by_cases ht : truthy sid
  · rw [if_pos ht]
    cases findBySession st.conversations (sid.getD "") <;> rfl
  · rw [if_neg ht]

/-- Claim C6: messages are append-only and immutable.  No operation
modifies a message row once written: a row present before an operation
is still present, identical, afterwards unless the operation deleted its
whole conversation (delete_conversation or the TTL sweep), and the only
new rows are the ones save_message appends. -/
theorem C6_messages_append_only (st : DB) (op : Op) :
    (∀ m ∈ st.messages,
        m ∈ (applyOp st op).messages ∨ m.conversation_id ∈ deletedIds st op)
    ∧ (∀ m ∈ (applyOp st op).messages,
        m ∈ st.messages
        ∨ ∃ cid role text fu now mid, op = Op.save cid role text fu now mid
            ∧ m = ⟨mid, cid, role, text, fu, now⟩) := by
  cases op with
  | upsert sid now nid fs =>
      constructor
      · intro m hm
        left
        show m ∈ (upsert_conversation st sid now nid fs).1.messages
        rw [upsert_messages]
        exact hm
      · intro m hm
        left
        rw [show (applyOp st (Op.upsert sid now nid fs)).messages
            = st.messages from upsert_messages st sid now nid fs] at hm
        exact hm
  | save cid role text fu now mid =>
      constructor
      · intro m hm
        left
        exact List.mem_append_left _ hm
      · intro m hm
        rcases List.mem_append.mp hm with hold | hnew
        · exact Or.inl hold
        · rcases List.mem_singleton.mp hnew with rfl
          exact Or.inr ⟨cid, role, text, fu, now, mid, rfl, rfl⟩
  | newLead cid sn sc md now lid =>
      exact ⟨fun m hm => Or.inl hm, fun m hm => Or.inl hm⟩
  | deleteConv cid =>
      constructor
      · intro m hm
        cases hb : m.conversation_id == cid with
        | true =>
            right
            exact List.mem_singleton.mpr (eq_of_beq hb)
        | false =>
            left
            exact List.mem_filter.mpr ⟨hm, by rw [hb]; rfl⟩
      · intro m hm
        exact Or.inl (List.mem_filter.mp hm).1
  | cleanup ttl now =>
      constructor
      · intro m hm
        cases hb : (cleanup_old_sessions st ttl now).2.contains m.conversation_id with
        | true =>
            right
            exact List.elem_iff.mp hb
        | false =>
            left
            show m ∈ (cleanup_old_sessions st ttl now).1.messages
            rw [cleanup_messages]
            exact List.mem_filter.mpr ⟨hm, by rw [hb]; rfl⟩
      · intro m hm
        rw [show (applyOp st (Op.cleanup ttl now)).messages
            = (cleanup_old_sessions st ttl now).1.messages from rfl,
          cleanup_messages] at hm
        exact Or.inl (List.mem_filter.mp hm).1

theorem C6_messages_append_only_witness :
    (⟨"m1", "c1", "user", "hi", none, 0⟩ : Msg) ∈ wit2.messages
    ∧ ((⟨"m1", "c1", "user", "hi", none, 0⟩ : Msg)
          ∈ (applyOp wit2 (Op.deleteConv "c1")).messages
        ∨ (⟨"m1", "c1", "user", "hi", none, 0⟩ : Msg).conversation_id
          ∈ deletedIds wit2 (Op.deleteConv "c1")) :=
  ⟨by decide,
   (C6_messages_append_only wit2 (Op.deleteConv "c1")).1
     ⟨"m1", "c1", "user", "hi", none, 0⟩ (by decide)⟩

/-- Claim C8: the /ask handler returns HTTP 200 for every request whose
processing does not raise, and converts any exception raised inside the
try block (the RAG chain call) into an HTTP 500 response carrying the
generic apology message, never propagating the exception. -/
theorem C8_ask_error_handling (q : String) (qa : Except String String) :
    ((ask_question q qa).status = 200
      ∨ ((ask_question q qa).status = 500
          ∧ (ask_question q qa).answer = criticalErrorMsg))
    ∧ ((ask_question q qa).status = 500
        ↔ (INSTANT_QA.lookup (pyLower (pyStrip q)) = none
            ∧ ∃ e, qa = Except.error e)) := by
  unfold ask_question
  cases hl : INSTANT_QA.lookup (pyLower (pyStrip q)) with
  | some a => simp [hl]
  | none =>
    cases qa with
    | error e => simp [hl]
    | ok ans =>
        by_cases hni : (strContains (pyLower ans) "i don\x27t have enough information"
            || strContains (pyLower ans) "not directly available in the provided context")
            = true
        · simp [hl, hni]
        · simp [hl, hni]

end ChatDemo
